import Mathlib

/-!
Verification of the NetSDR source driver (`lib/netsdr/netsdr_source_c.cc`):
a shallow embedding of the driver's channel-selector validation, gain and
bandwidth register mapping, control-channel transaction layer, UDP streaming
decoder (header check, sequence tracking, sample extraction) and sample-rate
enumeration, together with theorems settling the specification claims.

Machine integers are modelled as `Nat`/`Int` with explicit reductions
modulo `2^8`, `2^16` and `2^64` where the C++ code computes with
`unsigned char`, `uint16_t` and `size_t`; `double` values that are exactly
representable in the source (gains, rates, bandwidths) are modelled as `ℚ`;
code paths that throw `std::runtime_error` are modelled with `Except String`.
-/

namespace NetSDR

/-- Signed reinterpretation of a 16-bit little-endian word, as done by the
`int16_t` reads in `work` (two's complement). -/
def toInt16 (w : Nat) : Int :=
  if w % 65536 < 32768 then (w % 65536 : Int) else (w % 65536 : Int) - 65536

/-- Signed reinterpretation of one byte, as done by the `(char)` cast in
`get_gain` (two's complement). -/
def toInt8 (b : Nat) : Int :=
  if b % 256 < 128 then (b % 256 : Int) else (b % 256 : Int) - 256

/-- Function `apply_channel`: shared channel-selector validation.  Selector 0 yields
control byte 0; selector 1 yields control byte 2 but requires `_nchan ≥ 2`;
every other selector (and selector 1 with a single channel) throws
"Channel must be 0 or 1". -/
def apply_channel (nchan chan : Nat) : Except String Nat :=
  if chan = 0 then .ok 0
  else if chan = 1 then
    if nchan < 2 then .error "Channel must be 0 or 1" else .ok 2
  else .error "Channel must be 0 or 1"

/-- The attenuation code chosen by `set_gain`'s if-chain
(`gain <= -30 → 0xE2`, `gain <= -20 → 0xEC`, `gain <= -10 → 0xF6`,
otherwise `0x00`). -/
def set_gain_atten (gain : ℚ) : Nat :=
  if gain ≤ -30 then 0xE2
  else if gain ≤ -20 then 0xEC
  else if gain ≤ -10 then 0xF6
  else 0x00

/-- The full 6-byte RF-gain command assembled by `set_gain`
(`{ 0x06, 0x00, 0x38, 0x00, chan, atten }`), after channel validation. -/
def set_gain_cmd (nchan chan : Nat) (gain : ℚ) : Except String (List Nat) :=
  match apply_channel nchan chan with
  | .error e => .error e
  | .ok cb => .ok [0x06, 0x00, 0x38, 0x00, cb, set_gain_atten gain]

/-- One step of the sequence tracking in `work`:
`uint16_t diff = sequence - _sequence` (wrapping 16-bit subtraction),
a loss report carrying `diff` exactly when `diff > 1`, and the update
`_sequence = (0xffff == sequence) ? 0 : sequence`.
Returns `(new stored sequence, optional reported diff)`. -/
def seqStep (prev seq : Nat) : Nat × Option Nat :=
  let s := seq % 65536
  let p := prev % 65536
  let diff := (s + 65536 - p) % 65536
  (if s = 65535 then 0 else s, if 1 < diff then some diff else none)

/-- Feed a list of sequence numbers through `seqStep`; returns the final
stored sequence and the list of reported loss diffs, in order. -/
def seqTrace (prev : Nat) : List Nat → Nat × List Nat
  | [] => (prev, [])
  | s :: rest =>
    let step := seqStep prev s
    let tail := seqTrace step.1 rest
    (tail.1, (match step.2 with | some d => [d] | none => []) ++ tail.2)

/-- The wrapping 16-bit `diff` value computed at each step of a trace. -/
def seqDiffs (prev : Nat) : List Nat → List Nat
  | [] => []
  | s :: rest =>
    (s % 65536 + 65536 - prev % 65536) % 65536 :: seqDiffs (seqStep prev s).1 rest

/-- Reinterpret a byte list as consecutive little-endian `int16_t` values,
as the sample pointer in `work` does. -/
def int16Stream : List Nat → List Int
  | lo :: hi :: rest => toInt16 (lo + 256 * hi) :: int16Stream rest
  | _ => []

/-- Constant `SCALE_16 = 1.0f/32768.0f` (exactly representable, modelled in ℚ). -/
def SCALE_16 : ℚ := 1 / 32768

/-- The single-channel extraction loop of `work`: `n` iterations, each
consuming two `int16_t` values (I, Q) and advancing the pointer by two. -/
def takePairs : Nat → List Int → List (ℚ × ℚ)
  | 0, _ => []
  | n + 1, s =>
    ((s.getD 0 0 : ℚ) * SCALE_16, (s.getD 1 0 : ℚ) * SCALE_16) :: takePairs n (s.drop 2)

/-- The dual-channel extraction loop of `work`: `n` iterations, each
consuming four `int16_t` values (I1, Q1, I2, Q2) and advancing by four;
the first pair goes to channel 1, the second to channel 2. -/
def takeQuads : Nat → List Int → List ((ℚ × ℚ) × (ℚ × ℚ))
  | 0, _ => []
  | n + 1, s =>
    (((s.getD 0 0 : ℚ) * SCALE_16, (s.getD 1 0 : ℚ) * SCALE_16),
     ((s.getD 2 0 : ℚ) * SCALE_16, (s.getD 3 0 : ℚ) * SCALE_16)) :: takeQuads n (s.drop 4)

/-- Value `rx_samples = (rx_bytes - HEADER_SIZE - SEQNUM_SIZE) / (sizeof(int16_t)*2)`
computed in `size_t` (64-bit wrapping) arithmetic: subtracting 4 underflows
for short datagrams. -/
def rxSamplesRaw (rx_bytes : Nat) : Nat :=
  ((rx_bytes % 18446744073709551616 + 18446744073709551616 - 4) % 18446744073709551616) / 4

/-- The driver state fields that the streaming path reads and writes:
`_running`, `_sequence` (a `uint16_t`) and `_nchan`. -/
structure NetSDRState where
  running : Bool
  sequence : Nat
  nchan : Nat
deriving DecidableEq

/-- Result of one invocation of `work`: whether `WORK_DONE` was returned,
the optional packet-loss diff that was reported, the returned sample count,
and the per-channel output sample lists, plus the updated state. -/
structure WorkResult where
  workDone : Bool
  lossReport : Option Nat
  outCount : Nat
  out1 : List (ℚ × ℚ)
  out2 : List (ℚ × ℚ)
  state : NetSDRState

/-- The streaming decoder `work`, invoked on the state and the received
datagram bytes: gate on `_running`, validate the 2-byte header (only
`0x04 0x84` and `0x04 0x82` proceed; the 24-bit headers and everything else
return 0 samples), read the little-endian 16-bit sequence number, run the
sequence tracking, then extract 16-bit I/Q samples for 1 or 2 channels. -/
def work (st : NetSDRState) (data : List Nat) : WorkResult :=
  if st.running = false then ⟨true, none, 0, [], [], st⟩
  else if data.getD 0 0 = 0x04 ∧ (data.getD 1 0 = 0x84 ∨ data.getD 1 0 = 0x82) then
    let seq := (data.getD 2 0 + 256 * data.getD 3 0) % 65536
    let upd := seqStep st.sequence seq
    let st2 : NetSDRState := ⟨st.running, upd.1, st.nchan⟩
    let stream := int16Stream (data.drop 4)
    let n := rxSamplesRaw data.length
    if st.nchan = 1 then
      ⟨false, upd.2, n, takePairs n stream, [], st2⟩
    else if st.nchan = 2 then
      let quads := takeQuads (n / 2) stream
      ⟨false, upd.2, n / 2, quads.map Prod.fst, quads.map Prod.snd, st2⟩
    else ⟨false, upd.2, n, [], [], st2⟩
  else ⟨false, none, 0, [], [], st⟩

/-- Function `stop()`: set `_running = false`, then issue the "receiver state = idle"
transaction `{ 0x08, 0x00, 0x18, 0x00, 0x00, 0x01, 0x00, 0x00 }` and return
its outcome (`txOk` abstracts the transport).  The flag is cleared before and
regardless of the transaction. -/
def stop (st : NetSDRState) (txOk : Bool) : NetSDRState × List Nat × Bool :=
  (⟨false, st.sequence, st.nchan⟩, [0x08, 0x00, 0x18, 0x00, 0x00, 0x01, 0x00, 0x00], txOk)

/-- The three-argument `transaction`: one full command write, one read into
the response buffer (`received` abstracts whatever bytes the transport
returned), and then an unconditional `return true`. -/
def transaction3 (cmd received : List Nat) : Bool × List Nat :=
  let _unused := cmd
  (true, received)

/-- Function `get_center_freq`: channel validation, the 10-byte get-frequency command
(declared `unsigned char freq[10]` but only 5 bytes initialized), a hard
failure if the transaction returned false, else the 32-bit little-endian
frequency decoded from the last bytes of the response. -/
def get_center_freq (nchan chan : Nat) (received : List Nat) : Except String Nat :=
  match apply_channel nchan chan with
  | .error e => .error e
  | .ok cb =>
    let t := transaction3 [0x05, 0x20, 0x20, 0x00, cb, 0, 0, 0, 0, 0] received
    if t.1 = false then .error "get_center_freq failed"
    else
      .ok (t.2.getD (t.2.length - 5) 0 + 256 * t.2.getD (t.2.length - 4) 0 +
           65536 * t.2.getD (t.2.length - 3) 0 + 16777216 * t.2.getD (t.2.length - 2) 0)

/-- Function `get_gain`: channel validation, the 5-byte get-gain command, a hard
failure if the transaction returned false, else the last response byte
reinterpreted as a signed `char`. -/
def get_gain (nchan chan : Nat) (received : List Nat) : Except String Int :=
  match apply_channel nchan chan with
  | .error e => .error e
  | .ok cb =>
    let t := transaction3 [0x05, 0x20, 0x38, 0x00, cb] received
    if t.1 = false then .error "get_gain failed"
    else .ok (toInt8 (t.2.getD (t.2.length - 1) 0))

/-- Value `rate = 80e6/(4.0*i)` of `get_sample_rates`, as an exact rational. -/
def netsdrRate (i : Nat) : ℚ := 80000000 / (4 * (i : ℚ))

/-- Constant `MAX_RATE` (2e6). -/
def MAX_RATE : ℚ := 2000000

/-- The loop of `get_sample_rates`: `i` descends from 625 while `i ≥ 10`;
break once `rate > MAX_RATE / _nchan`; append `rate` when `floor(rate) == rate`.
`fuel` bounds the number of iterations (616 suffice for 625 down to 10). -/
def sampleRatesLoop (nchan : Nat) : Nat → Nat → List ℚ
  | 0, _ => []
  | fuel + 1, i =>
    if i < 10 then []
    else if MAX_RATE / (nchan : ℚ) < netsdrRate i then []
    else if (⌊netsdrRate i⌋ : ℚ) = netsdrRate i then
      netsdrRate i :: sampleRatesLoop nchan fuel (i - 1)
    else sampleRatesLoop nchan fuel (i - 1)

/-- Function `get_sample_rates`: enumerate divisors from 625 down to 10. -/
def get_sample_rates (nchan : Nat) : List ℚ := sampleRatesLoop nchan 616 625

/-- Constant `BANDWIDTH` (34e6). -/
def BANDWIDTH : ℚ := 34000000

/-- Function `set_bandwidth`: channel validation, then the filter command
`{ 0x06, 0x00, 0x44, 0x00, chan, code }` where a requested bandwidth of 0
caches 0 and selects code 0x00, 34 MHz caches 34e6 and selects code 0x0B,
and any other value leaves both the cache and the (zero-initialized) code
byte untouched; the transaction is sent unconditionally and the call
returns `get_bandwidth()`, i.e. the new cache.  Returns
`(new cached bandwidth = return value, command bytes sent)`. -/
def set_bandwidth (nchan chan : Nat) (bandwidth cached : ℚ) :
    Except String (ℚ × List Nat) :=
  match apply_channel nchan chan with
  | .error e => .error e
  | .ok cb =>
    if bandwidth = 0 then .ok (0, [0x06, 0x00, 0x44, 0x00, cb, 0x00])
    else if bandwidth = BANDWIDTH then .ok (BANDWIDTH, [0x06, 0x00, 0x44, 0x00, cb, 0x0B])
    else .ok (cached, [0x06, 0x00, 0x44, 0x00, cb, 0x00])

/-! ## Helper lemmas -/

/-- Every error thrown by `apply_channel` carries the invalid-channel message. -/
theorem apply_channel_error_msg (nchan chan : Nat) (e : String)
    (h : apply_channel nchan chan = .error e) : e = "Channel must be 0 or 1" := by
  unfold apply_channel at h
  split_ifs at h <;> simp_all

theorem list_getD_drop {α : Type} (m : Nat) (l : List α) (n : Nat) (d : α) :
    (l.drop m).getD n d = l.getD (m + n) d := by
  induction m generalizing l with
  | zero => simp
  | succ m ih =>
    cases l with
    | nil => simp
    | cons a t =>
      rw [List.drop_succ_cons, ih t, show m + 1 + n = (m + n) + 1 by omega,
        List.getD_cons_succ]

theorem takePairs_length (n : Nat) (s : List Int) : (takePairs n s).length = n := by
  induction n generalizing s with
  | zero => rfl
  | succ n ih => simp [takePairs, ih]

theorem takePairs_getD (n : Nat) (s : List Int) (i : Nat) (hi : i < n) :
    (takePairs n s).getD i (0, 0) =
      ((s.getD (2 * i) 0 : ℚ) * SCALE_16, (s.getD (2 * i + 1) 0 : ℚ) * SCALE_16) := by
  induction n generalizing s i with
  | zero => omega
  | succ n ih =>
    cases i with
    | zero => simp [takePairs]
    | succ i =>
      rw [takePairs, List.getD_cons_succ, ih (s.drop 2) i (by omega),
        list_getD_drop, list_getD_drop,
        show 2 + 2 * i = 2 * (i + 1) by omega,
        show 2 + (2 * i + 1) = 2 * (i + 1) + 1 by omega]

theorem int16Stream_getD : ∀ (l : List Nat) (k : Nat), 2 * k + 1 < l.length →
    (int16Stream l).getD k 0 = toInt16 (l.getD (2 * k) 0 + 256 * l.getD (2 * k + 1) 0)
  | [], k, h => by simp at h
  | [a], k, h => by simp only [List.length_cons, List.length_nil] at h; omega
  | a :: b :: t, 0, h => by simp [int16Stream]
  | a :: b :: t, k + 1, h => by
    have hlt : 2 * k + 1 < t.length := by
      simp only [List.length_cons] at h
      omega
    rw [int16Stream, List.getD_cons_succ, int16Stream_getD t k hlt,
      show 2 * (k + 1) = (2 * k + 1) + 1 by omega]
    rw [List.getD_cons_succ, List.getD_cons_succ]
    rw [show 2 * k + 1 + 1 + 1 = (2 * k + 1) + 1 + 1 by omega]
    rw [List.getD_cons_succ, List.getD_cons_succ]

theorem rxSamplesRaw_eq (len : Nat) (h4 : 4 ≤ len) (hle : len ≤ 2048) :
    rxSamplesRaw len = (len - 4) / 4 := by
  unfold rxSamplesRaw
  omega

theorem takeQuads_length (n : Nat) (s : List Int) : (takeQuads n s).length = n := by
  induction n generalizing s with
  | zero => rfl
  | succ n ih => simp [takeQuads, ih]

theorem takeQuads_getD (n : Nat) (s : List Int) (i : Nat) (hi : i < n) :
    (takeQuads n s).getD i ((0, 0), (0, 0)) =
      (((s.getD (4 * i) 0 : ℚ) * SCALE_16, (s.getD (4 * i + 1) 0 : ℚ) * SCALE_16),
       ((s.getD (4 * i + 2) 0 : ℚ) * SCALE_16, (s.getD (4 * i + 3) 0 : ℚ) * SCALE_16)) := by
  induction n generalizing s i with
  | zero => omega
  | succ n ih =>
    cases i with
    | zero => simp [takeQuads]
    | succ i =>
      rw [takeQuads, List.getD_cons_succ, ih (s.drop 4) i (by omega),
        list_getD_drop, list_getD_drop, list_getD_drop, list_getD_drop,
        show 4 + 4 * i = 4 * (i + 1) by omega,
        show 4 + (4 * i + 1) = 4 * (i + 1) + 1 by omega,
        show 4 + (4 * i + 2) = 4 * (i + 1) + 2 by omega,
        show 4 + (4 * i + 3) = 4 * (i + 1) + 3 by omega]

theorem list_getD_map {α β : Type} (l : List α) (f : α → β) (i : Nat) (d : β) (d0 : α)
    (hi : i < l.length) : (l.map f).getD i d = f (l.getD i d0) := by
  rw [List.getD_eq_getElem _ _ (by simpa using hi), List.getElem_map,
    List.getD_eq_getElem _ _ hi]

theorem work_16bit (st : NetSDRState) (data : List Nat)
    (hrun : st.running = true)
    (hb0 : data.getD 0 0 = 0x04)
    (hb1 : data.getD 1 0 = 0x84 ∨ data.getD 1 0 = 0x82) :
    work st data =
      (if st.nchan = 1 then
        ⟨false, (seqStep st.sequence ((data.getD 2 0 + 256 * data.getD 3 0) % 65536)).2,
          rxSamplesRaw data.length,
          takePairs (rxSamplesRaw data.length) (int16Stream (data.drop 4)), [],
          ⟨st.running, (seqStep st.sequence ((data.getD 2 0 + 256 * data.getD 3 0) % 65536)).1,
            st.nchan⟩⟩
       else if st.nchan = 2 then
        ⟨false, (seqStep st.sequence ((data.getD 2 0 + 256 * data.getD 3 0) % 65536)).2,
          rxSamplesRaw data.length / 2,
          (takeQuads (rxSamplesRaw data.length / 2) (int16Stream (data.drop 4))).map Prod.fst,
          (takeQuads (rxSamplesRaw data.length / 2) (int16Stream (data.drop 4))).map Prod.snd,
          ⟨st.running, (seqStep st.sequence ((data.getD 2 0 + 256 * data.getD 3 0) % 65536)).1,
            st.nchan⟩⟩
       else
        ⟨false, (seqStep st.sequence ((data.getD 2 0 + 256 * data.getD 3 0) % 65536)).2,
          rxSamplesRaw data.length, [], [],
          ⟨st.running, (seqStep st.sequence ((data.getD 2 0 + 256 * data.getD 3 0) % 65536)).1,
            st.nchan⟩⟩) := by
  unfold work
  rw [if_neg (by simp [hrun]), if_pos (And.intro hb0 hb1)]

/-- The rate `80e6/(4*i)` is antitone in the divisor `i`. -/
theorem netsdrRate_anti {j i : Nat} (hj : 1 ≤ j) (hji : j ≤ i) :
    netsdrRate i ≤ netsdrRate j := by
  unfold netsdrRate
  have h1 : (0 : ℚ) < 4 * (j : ℚ) := by
    have : (1 : ℚ) ≤ (j : ℚ) := by exact_mod_cast hj
    linarith
  have h2 : (4 : ℚ) * (j : ℚ) ≤ 4 * (i : ℚ) := by
    have : (j : ℚ) ≤ (i : ℚ) := by exact_mod_cast hji
    linarith
  gcongr

/-- Every element produced by the `get_sample_rates` loop comes from some
divisor `j` between 10 and the current `i`, is an integral rate, and
respects the per-channel-count ceiling. -/
theorem sampleRatesLoop_mem (nchan : Nat) :
    ∀ (fuel i : Nat) (x : ℚ), x ∈ sampleRatesLoop nchan fuel i →
      ∃ j, 10 ≤ j ∧ j ≤ i ∧ x = netsdrRate j ∧ (⌊x⌋ : ℚ) = x ∧
        x ≤ MAX_RATE / (nchan : ℚ) := by
  intro fuel
  induction fuel with
  | zero => intro i x hx; simp [sampleRatesLoop] at hx
  | succ fuel ih =>
    intro i x hx
    unfold sampleRatesLoop at hx
    split_ifs at hx with hlt hcap hint
    · simp at hx
    · simp at hx
    · rcases List.mem_cons.mp hx with hhd | htl
      · subst hhd
        exact ⟨i, by omega, le_refl i, rfl, hint, not_lt.mp hcap⟩
      · obtain ⟨j, hj10, hji, hxe, hfl, hc⟩ := ih (i - 1) x htl
        exact ⟨j, hj10, by omega, hxe, hfl, hc⟩
    · obtain ⟨j, hj10, hji, hxe, hfl, hc⟩ := ih (i - 1) x hx
      exact ⟨j, hj10, by omega, hxe, hfl, hc⟩

/-- The `get_sample_rates` loop produces a non-decreasing list: the divisor
descends, so the appended rates ascend. -/
theorem sampleRatesLoop_sorted (nchan : Nat) :
    ∀ fuel i, (sampleRatesLoop nchan fuel i).Sorted (· ≤ ·) := by
  intro fuel
  induction fuel with
  | zero => intro i; simp [sampleRatesLoop]
  | succ fuel ih =>
    intro i
    unfold sampleRatesLoop
    split_ifs with hlt hcap hint
    · simp
    · simp
    · refine List.sorted_cons.mpr ⟨?_, ih (i - 1)⟩
      intro b hb
      obtain ⟨j, hj10, hji, hxe, _, _⟩ := sampleRatesLoop_mem nchan fuel (i - 1) b hb
      subst hxe
      exact netsdrRate_anti (by omega) (by omega)
    · exact ih (i - 1)

/-! ## Claim theorems -/

/-- C1 counterexample: the claimed example row is wrong.  `set_gain` maps
-25 to code 0xEC (not 0xE2), -15 to 0xF6 (not 0xEC) and -5 to 0x00
(not 0xF6). -/
theorem c1_counterexample :
    set_gain_atten (-25) = 0xEC ∧ set_gain_atten (-15) = 0xF6 ∧
    set_gain_atten (-5) = 0x00 ∧ ¬ set_gain_atten (-25) = 0xE2 := by
  decide

/-- C1 (amended): for every channel, `set_gain` maps the requested gain to an
attenuation code as a total, deterministic step function, per the register
table: ≤ -30 dB gives 0xE2, ≤ -20 gives 0xEC, ≤ -10 gives 0xF6, anything
else gives 0x00; hence inputs -30, -25, -15, -5, 0, 5 map respectively to
codes 0xE2, 0xEC, 0xF6, 0x00, 0x00, 0x00. -/
theorem c1_gain_step_function (g : ℚ) :
    (set_gain_atten g = 0xE2 ↔ g ≤ -30) ∧
    (set_gain_atten g = 0xEC ↔ -30 < g ∧ g ≤ -20) ∧
    (set_gain_atten g = 0xF6 ↔ -20 < g ∧ g ≤ -10) ∧
    (set_gain_atten g = 0x00 ↔ -10 < g) ∧
    set_gain_cmd 1 0 g = .ok [0x06, 0x00, 0x38, 0x00, 0, set_gain_atten g] ∧
    set_gain_cmd 2 1 g = .ok [0x06, 0x00, 0x38, 0x00, 2, set_gain_atten g] ∧
    (set_gain_atten (-30), set_gain_atten (-25), set_gain_atten (-15)) = (0xE2, 0xEC, 0xF6) ∧
    (set_gain_atten (-5), set_gain_atten 0, set_gain_atten 5) = (0x00, 0x00, 0x00) := by
  refine ⟨?_, ?_, ?_, ?_, rfl, rfl, by decide, by decide⟩ <;>
  · unfold set_gain_atten
    split_ifs with h1 h2 h3 <;>
      constructor <;> intro hx <;>
        first | linarith | (constructor <;> linarith) | norm_num at hx

/-- C1 witness: the amended step function evaluated at -25. -/
theorem c1_gain_step_function_witness :
    set_gain_atten (-25) = 0xEC ↔ -30 < (-25 : ℚ) ∧ (-25 : ℚ) ≤ -20 :=
  (c1_gain_step_function (-25)).2.1

/-- C2 counterexample: the stored previous-sequence is not updated by simply
accepting the new value — sequence 0xFFFF is stored as 0; consequently the
wrap trace 0xFFFE, 0xFFFF, 0x0000 has diffs 1, 1, 0 (not 1 at each step);
and from the start state (previous = 0) the trace 100, 101, 105 produces two
loss reports (diffs 100 and 4), not exactly one. -/
theorem c2_counterexample :
    (seqStep 100 65535).1 = 0 ∧ ¬ (seqStep 100 65535).1 = 65535 ∧
    seqDiffs 65533 [65534, 65535, 0] = [1, 1, 0] ∧
    (seqTrace 0 [100, 101, 105]).2 = [100, 4] := by
  decide

/-- C2 (amended): for every accepted datagram the decoder computes
`diff = sequence - previous` with wrapping unsigned 16-bit arithmetic and
reports a loss with count `diff` exactly when `diff > 1`; the stored
previous-sequence becomes the new value except that 0xFFFF is stored as 0.
Feeding 100, 101, 105 from the start state (previous = 0) yields two loss
reports with diffs 100 and 4; feeding 0xFFFE, 0xFFFF, 0x0000 (previous =
0xFFFD) yields no loss report, the per-step diffs being 1, 1, 0. -/
theorem c2_sequence_tracking :
    (∀ prev seq : Nat, prev < 65536 → seq < 65536 →
      (seqStep prev seq).1 = (if seq = 65535 then 0 else seq) ∧
      (seqStep prev seq).2 =
        (if 1 < (seq + 65536 - prev) % 65536 then some ((seq + 65536 - prev) % 65536)
         else none)) ∧
    (seqTrace 0 [100, 101, 105]).2 = [100, 4] ∧
    (seqTrace 65533 [65534, 65535, 0]).2 = [] ∧
    seqDiffs 65533 [65534, 65535, 0] = [1, 1, 0] := by
  refine ⟨?_, by decide, by decide, by decide⟩
  intro prev seq hp hs
  unfold seqStep
  simp [Nat.mod_eq_of_lt hp, Nat.mod_eq_of_lt hs]

/-- C2 witness: the amended characterization at previous = 100,
sequence = 105 (diff 5, loss reported). -/
theorem c2_sequence_tracking_witness :
    (100 : Nat) < 65536 ∧ (105 : Nat) < 65536 ∧
    (seqStep 100 105).2 =
      (if 1 < (105 + 65536 - 100) % 65536 then some ((105 + 65536 - 100) % 65536)
       else none) :=
  ⟨by decide, by decide, (c2_sequence_tracking.1 100 105 (by decide) (by decide)).2⟩

/-- C3: for every datagram with a valid 16-bit header, the decoder produces
exactly floor(available_pairs / channel_count) samples per configured
channel: with 1 channel, floor((len-4)/4) complex samples, the i-th equal to
(I_i/32768, Q_i/32768) taken from consecutive little-endian signed 16-bit
pairs in arrival order; with 2 channels, each group of four consecutive
16-bit values (I1, Q1, I2, Q2) is de-interleaved into two equal-length
output sequences preserving order. -/
theorem c3_sample_extraction (st : NetSDRState) (data : List Nat)
    (hrun : st.running = true) (h4 : 4 ≤ data.length) (hlen : data.length ≤ 2048)
    (hb0 : data.getD 0 0 = 0x04)
    (hb1 : data.getD 1 0 = 0x84 ∨ data.getD 1 0 = 0x82) :
    (st.nchan = 1 →
      (work st data).out1.length = (data.length - 4) / 4 ∧
      ∀ i < (data.length - 4) / 4,
        (work st data).out1.getD i (0, 0) =
          ((toInt16 (data.getD (4 + 4 * i) 0 + 256 * data.getD (4 + 4 * i + 1) 0) : ℚ) / 32768,
           (toInt16 (data.getD (4 + 4 * i + 2) 0 + 256 * data.getD (4 + 4 * i + 3) 0) : ℚ) / 32768)) ∧
    (st.nchan = 2 →
      (work st data).out1.length = (data.length - 4) / 4 / 2 ∧
      (work st data).out2.length = (data.length - 4) / 4 / 2 ∧
      ∀ i < (data.length - 4) / 4 / 2,
        (work st data).out1.getD i (0, 0) =
          ((toInt16 (data.getD (4 + 8 * i) 0 + 256 * data.getD (4 + 8 * i + 1) 0) : ℚ) / 32768,
           (toInt16 (data.getD (4 + 8 * i + 2) 0 + 256 * data.getD (4 + 8 * i + 3) 0) : ℚ) / 32768) ∧
        (work st data).out2.getD i (0, 0) =
          ((toInt16 (data.getD (4 + 8 * i + 4) 0 + 256 * data.getD (4 + 8 * i + 5) 0) : ℚ) / 32768,
           (toInt16 (data.getD (4 + 8 * i + 6) 0 + 256 * data.getD (4 + 8 * i + 7) 0) : ℚ) / 32768)) := by
  have hw := work_16bit st data hrun hb0 hb1
  have hn : rxSamplesRaw data.length = (data.length - 4) / 4 := rxSamplesRaw_eq _ h4 hlen
  have hdl : (data.drop 4).length = data.length - 4 := by simp
  have hstream : ∀ k j1 j2 : Nat, 2 * k + 1 < (data.drop 4).length → 4 + 2 * k = j1 →
      4 + (2 * k + 1) = j2 →
      (int16Stream (data.drop 4)).getD k 0 =
        toInt16 (data.getD j1 0 + 256 * data.getD j2 0) := by
    intro k j1 j2 hk e1 e2
    rw [int16Stream_getD _ _ hk, list_getD_drop, list_getD_drop, e1, e2]
  constructor
  · intro hch
    rw [hw, if_pos hch]
    refine ⟨by simp [takePairs_length, hn], fun i hi => ?_⟩
    have hi2 : i < rxSamplesRaw data.length := by omega
    rw [takePairs_getD _ _ _ hi2,
      hstream (2 * i) (4 + 4 * i) (4 + 4 * i + 1) (by rw [hdl]; omega) (by omega) (by omega),
      hstream (2 * i + 1) (4 + 4 * i + 2) (4 + 4 * i + 3) (by rw [hdl]; omega) (by omega)
        (by omega)]
    simp [SCALE_16, div_eq_mul_inv]
  · intro hch
    rw [hw, if_neg (by omega), if_pos hch]
    have hq := takeQuads_length (rxSamplesRaw data.length / 2) (int16Stream (data.drop 4))
    refine ⟨by simp [takeQuads_length, hn], by simp [takeQuads_length, hn], fun i hi => ?_⟩
    have hi2 : i < rxSamplesRaw data.length / 2 := by omega
    have hqlen : i < (takeQuads (rxSamplesRaw data.length / 2) (int16Stream (data.drop 4))).length := by
      rw [hq]; omega
    constructor
    · rw [list_getD_map _ _ _ _ ((0, 0), (0, 0)) hqlen, takeQuads_getD _ _ _ hi2]
      rw [hstream (4 * i) (4 + 8 * i) (4 + 8 * i + 1) (by rw [hdl]; omega) (by omega) (by omega),
        hstream (4 * i + 1) (4 + 8 * i + 2) (4 + 8 * i + 3) (by rw [hdl]; omega) (by omega)
          (by omega)]
      simp [SCALE_16, div_eq_mul_inv]
    · rw [list_getD_map _ _ _ _ ((0, 0), (0, 0)) hqlen, takeQuads_getD _ _ _ hi2]
      rw [hstream (4 * i + 2) (4 + 8 * i + 4) (4 + 8 * i + 5) (by rw [hdl]; omega) (by omega)
          (by omega),
        hstream (4 * i + 3) (4 + 8 * i + 6) (4 + 8 * i + 7) (by rw [hdl]; omega) (by omega)
          (by omega)]
      simp [SCALE_16, div_eq_mul_inv]

/-- C3 witness: an 8-byte single-channel datagram carrying one sample with
I = 0x4000 (1/2 after scaling) and Q = 0xC000 (-1/2 after scaling). -/
theorem c3_sample_extraction_witness :
    (4 : Nat) ≤ ([4, 132, 0, 0, 0, 64, 0, 192] : List Nat).length ∧
    ([4, 132, 0, 0, 0, 64, 0, 192] : List Nat).length ≤ 2048 ∧
    ([4, 132, 0, 0, 0, 64, 0, 192] : List Nat).getD 0 0 = 0x04 ∧
    ([4, 132, 0, 0, 0, 64, 0, 192] : List Nat).getD 1 0 = 0x84 ∧
    (work ⟨true, 0, 1⟩ [4, 132, 0, 0, 0, 64, 0, 192]).out1.length = 1 ∧
    (work ⟨true, 0, 1⟩ [4, 132, 0, 0, 0, 64, 0, 192]).out1.getD 0 (0, 0) =
      (1 / 2, -(1 / 2)) := by
  have h := c3_sample_extraction ⟨true, 0, 1⟩ [4, 132, 0, 0, 0, 64, 0, 192] rfl
    (by decide) (by decide) (by decide) (Or.inl (by decide))
  have h1 := (h.1 rfl).1
  have h2 := (h.1 rfl).2 0 (by decide)
  refine ⟨by decide, by decide, by decide, by decide, by simpa using h1, ?_⟩
  rw [h2]
  norm_num [toInt16]

/-- C4: unsupported 24-bit frame headers (0xA4 0x85, 0x84 0x81) and every
other non-16-bit header yield zero produced samples without error and leave
the decoder state untouched — but for a short datagram (2 bytes) carrying a
valid 16-bit header, the `size_t` expression `rx_bytes - 4` underflows and
the code attempts to produce 4611686018427387903 samples instead of zero
(buffer overrun), contradicting the claim that any short datagram produces
zero samples and never stops the decoder. -/
theorem c4_streaming_anomalies :
    (work ⟨true, 0, 1⟩ [0x04, 0x84]).outCount = 4611686018427387903 ∧
    ¬ (work ⟨true, 0, 1⟩ [0x04, 0x84]).outCount = 0 ∧
    (work ⟨true, 7, 1⟩ [0xA4, 0x85, 0, 0, 1, 0, 2, 0]).outCount = 0 ∧
    (work ⟨true, 7, 1⟩ [0xA4, 0x85, 0, 0, 1, 0, 2, 0]).workDone = false ∧
    (work ⟨true, 7, 1⟩ [0xA4, 0x85, 0, 0, 1, 0, 2, 0]).state = ⟨true, 7, 1⟩ ∧
    (work ⟨true, 7, 1⟩ [0x84, 0x81, 0, 0, 1, 0, 2, 0]).outCount = 0 ∧
    (work ⟨true, 7, 1⟩ [0x84, 0x81, 0, 0, 1, 0, 2, 0]).workDone = false ∧
    (work ⟨true, 7, 1⟩ [0x01, 0x02, 0, 0, 1, 0, 2, 0]).outCount = 0 ∧
    (work ⟨true, 7, 1⟩ [0x01, 0x02, 0, 0, 1, 0, 2, 0]).out1 = [] := by
  exact ⟨rfl, by decide, rfl, rfl, rfl, rfl, rfl, rfl, rfl⟩

/-- C5: for every channel count in 1, 2, the sample-rate enumeration
(divisors 625 down to 10 of the 80 MHz clock, integral rates only, stopping
once the rate exceeds 2 MHz divided by the channel count) yields a
monotonically non-decreasing list whose every element is integral and at
most 2,000,000 / channel count. -/
theorem c5_sample_rate_enumeration (nchan : Nat) (h : nchan = 1 ∨ nchan = 2) :
    (32000 : ℚ) ∈ get_sample_rates nchan ∧
    (get_sample_rates nchan).Sorted (· ≤ ·) ∧
    ∀ x ∈ get_sample_rates nchan, (⌊x⌋ : ℚ) = x ∧ x ≤ 2000000 / (nchan : ℚ) := by
  refine ⟨?_, sampleRatesLoop_sorted nchan 616 625, fun x hx => ?_⟩
  · have hu : get_sample_rates nchan = netsdrRate 625 :: sampleRatesLoop nchan 615 624 := by
      rw [get_sample_rates, show (616 : Nat) = 615 + 1 from rfl, sampleRatesLoop,
        if_neg (by norm_num), if_neg ?_, if_pos ?_]
      all_goals rcases h with rfl | rfl <;> norm_num [netsdrRate, MAX_RATE]
    rw [hu, show (32000 : ℚ) = netsdrRate 625 from by norm_num [netsdrRate]]
    exact List.mem_cons_self _ _
  · obtain ⟨j, _, _, _, hfl, hcap⟩ := sampleRatesLoop_mem nchan 616 625 x hx
    exact ⟨hfl, hcap⟩

/-- C5 witness: the enumeration for a single channel. -/
theorem c5_sample_rate_enumeration_witness :
    ((1 : Nat) = 1 ∨ (1 : Nat) = 2) ∧
    ((32000 : ℚ) ∈ get_sample_rates 1 ∧
     (get_sample_rates 1).Sorted (· ≤ ·) ∧
     ∀ x ∈ get_sample_rates 1, (⌊x⌋ : ℚ) = x ∧ x ≤ 2000000 / ((1 : Nat) : ℚ)) :=
  ⟨Or.inl rfl, c5_sample_rate_enumeration 1 (Or.inl rfl)⟩

/-- C6: channel-selector validation — selector 0 always succeeds with control
byte 0; selector 1 succeeds with control byte 2 exactly when two channels are
configured, and fails with the invalid-channel error for a single channel;
any selector other than 0 or 1 always fails with the invalid-channel error. -/
theorem c6_channel_selector (nchan chan : Nat) (h : nchan = 1 ∨ nchan = 2) :
    apply_channel nchan 0 = .ok 0 ∧
    apply_channel 2 1 = .ok 2 ∧
    apply_channel 1 1 = .error "Channel must be 0 or 1" ∧
    (2 ≤ chan → apply_channel nchan chan = .error "Channel must be 0 or 1") := by
  refine ⟨rfl, rfl, rfl, fun h2 => ?_⟩
  have h0 : chan ≠ 0 := by omega
  have h1 : chan ≠ 1 := by omega
  simp [apply_channel, h0, h1]

/-- C6 witness: channel count 1 with the out-of-range selector 5. -/
theorem c6_channel_selector_witness :
    ((1 : Nat) = 1 ∨ (1 : Nat) = 2) ∧
    (apply_channel 1 0 = .ok 0 ∧
     apply_channel 2 1 = .ok 2 ∧
     apply_channel 1 1 = .error "Channel must be 0 or 1" ∧
     (2 ≤ 5 → apply_channel 1 5 = .error "Channel must be 0 or 1")) :=
  ⟨Or.inl rfl, c6_channel_selector 1 5 (Or.inl rfl)⟩

/-- C7: `stop()` always leaves the session logically stopped regardless of
the receiver-state transaction's outcome: the running flag is false
afterwards, and the next `work` invocation returns the done signal with no
samples instead of attempting a receive. -/
theorem c7_stop_logically_stopped (st : NetSDRState) (txOk : Bool) (data : List Nat) :
    (stop st txOk).1.running = false ∧
    (work (stop st txOk).1 data).workDone = true ∧
    (work (stop st txOk).1 data).outCount = 0 ∧
    (work (stop st txOk).1 data).out1 = [] ∧
    (work (stop st txOk).1 data).out2 = [] :=
  ⟨rfl, rfl, rfl, rfl, rfl⟩

/-- C8 counterexample: a request of 1 MHz (neither 0 nor 34 MHz) with cached
bandwidth 34 MHz leaves the cache unchanged and returns it, but the filter
transaction is still sent, with the same command bytes as an explicit
automatic-selection (bandwidth 0) request — so a filter-mode change is
applied on the device. -/
theorem c8_counterexample :
    set_bandwidth 1 0 1000000 BANDWIDTH =
      .ok (BANDWIDTH, [0x06, 0x00, 0x44, 0x00, 0x00, 0x00]) ∧
    set_bandwidth 1 0 0 BANDWIDTH =
      .ok (0, [0x06, 0x00, 0x44, 0x00, 0x00, 0x00]) :=
  ⟨rfl, rfl⟩

/-- C8 (amended): for every requested bandwidth other than 0 and 34 MHz,
`set_bandwidth` does not modify the cached bandwidth and returns the
previously cached value, but it still issues the RF-filter-select
transaction with filter code 0x00 (automatic selection by NCO frequency). -/
theorem c8_bandwidth_ignored_values (bw cached : ℚ) (h0 : bw ≠ 0) (h34 : bw ≠ BANDWIDTH) :
    set_bandwidth 1 0 bw cached = .ok (cached, [0x06, 0x00, 0x44, 0x00, 0, 0x00]) ∧
    set_bandwidth 2 1 bw cached = .ok (cached, [0x06, 0x00, 0x44, 0x00, 2, 0x00]) := by
  unfold set_bandwidth apply_channel
  simp [h0, h34]

/-- C8 witness: requesting 1 MHz with 34 MHz cached. -/
theorem c8_bandwidth_ignored_values_witness :
    (1000000 : ℚ) ≠ 0 ∧ (1000000 : ℚ) ≠ BANDWIDTH ∧
    set_bandwidth 1 0 1000000 BANDWIDTH =
      .ok (BANDWIDTH, [0x06, 0x00, 0x44, 0x00, 0, 0x00]) :=
  ⟨by norm_num, by norm_num [BANDWIDTH],
   (c8_bandwidth_ignored_values 1000000 BANDWIDTH (by norm_num)
     (by norm_num [BANDWIDTH])).1⟩

/-- C9: the three-argument `transaction` returns true on every invocation
that completes without a transport exception, so the hard-failure branches
of `get_center_freq` and `get_gain` that test its boolean result are
unreachable: neither getter can return its "failed" error. -/
theorem c9_transaction_always_true (cmd received : List Nat) (nchan chan : Nat) :
    (transaction3 cmd received).1 = true ∧
    get_center_freq nchan chan received ≠ .error "get_center_freq failed" ∧
    get_gain nchan chan received ≠ .error "get_gain failed" := by
  refine ⟨rfl, ?_, ?_⟩
  · cases h : apply_channel nchan chan with
    | error e =>
      have he := apply_channel_error_msg _ _ _ h
      simp [get_center_freq, h, he]
    | ok cb => simp [get_center_freq, h, transaction3]
  · cases h : apply_channel nchan chan with
    | error e =>
      have he := apply_channel_error_msg _ _ _ h
      simp [get_gain, h, he]
    | ok cb => simp [get_gain, h, transaction3]

/-- C10: `get_gain` interprets the last response byte as a signed 8-bit
integer, so it always returns a value in [-128, 127]; the attenuation codes
0xE2, 0xEC, 0xF6, 0x00 read back as -30, -20, -10 and 0. -/
theorem c10_gain_signed_byte (received : List Nat) :
    (∃ v : Int, get_gain 1 0 received = .ok v ∧ -128 ≤ v ∧ v ≤ 127) ∧
    get_gain 1 0 [0x05, 0x20, 0x38, 0x00, 0x00, 0xE2] = .ok (-30) ∧
    get_gain 1 0 [0x05, 0x20, 0x38, 0x00, 0x00, 0xEC] = .ok (-20) ∧
    get_gain 1 0 [0x05, 0x20, 0x38, 0x00, 0x00, 0xF6] = .ok (-10) ∧
    get_gain 1 0 [0x05, 0x20, 0x38, 0x00, 0x00, 0x00] = .ok 0 := by
  refine ⟨⟨toInt8 (received.getD (received.length - 1) 0), rfl, ?_, ?_⟩,
    rfl, rfl, rfl, rfl⟩ <;>
  · unfold toInt8
    split_ifs <;> omega

end NetSDR
